import Mathlib

/-!
Shallow embedding of the game-record extraction and opening-frequency
aggregation engine of `src/main.py` (Lichess Game Metrics Explorer),
together with the percentage helper of `main`.

Text is modelled as `List Char`; Python exceptions are modelled with
`Except PyErr`.  The pandas operations the source relies on
(`pd.DataFrame`, `DataFrame.empty`, column access, `Series.value_counts`,
`Series.head`) are modelled by list functions following pandas'
documented behaviour; each model is commented at its definition.
-/

/-- Python exceptions the embedded code can raise. -/
inductive PyErr where
  | valueError
  | keyError
  | indexError
deriving DecidableEq, Repr

/-- Text, modelled as a list of characters. -/
abbrev Str := List Char

/-- The character list of a string literal. -/
def strL (s : String) : Str := s.data

/-- The characters Python's no-argument `str.strip()` removes. -/
def pyWhitespace : Str := [' ', '\t', '\n', '\r', Char.ofNat 11, Char.ofNat 12]

/-- Python's substring test `sub in s`. -/
def hasSub (pat : Str) : Str → Bool
  | [] => pat.isEmpty
  | c :: rest => pat.isPrefixOf (c :: rest) || hasSub pat rest

/-- Worker for Python's `str.split(sep)` with non-empty `sep`:
scans the text left to right, `piece` holding the characters of the
current segment; `fuel` at least the length of the text makes the
recursion structural. -/
def splitOnFuel (sep : Str) : Nat → Str → Str → List Str
  | _, [], piece => [piece]
  | 0, xs, piece => [piece ++ xs]
  | fuel + 1, c :: rest, piece =>
    if sep.isPrefixOf (c :: rest) then
      piece :: splitOnFuel sep fuel (List.drop sep.length (c :: rest)) []
    else
      splitOnFuel sep fuel rest (piece ++ [c])

/-- Python's `str.split(sep)`: split on leftmost non-overlapping
occurrences of `sep`. -/
def splitOnL (sep xs : Str) : List Str :=
  if sep.isEmpty then [xs] else splitOnFuel sep xs.length xs []

/-- Python's `str.strip(chars)`: drop leading and trailing characters
that belong to `cs`. -/
def stripChars (cs : Str) (xs : Str) : Str :=
  ((xs.dropWhile cs.contains).reverse.dropWhile cs.contains).reverse

/-- A parsed game record: the Python dict `game_info` of
`pgn_to_dataframe`, keys in insertion order. -/
abbrev Record := List (Str × Str)

/-- Python dict assignment `d[k] = v`: overwrite in place when the key
exists, append otherwise. -/
def setKV : Record → Str → Str → Record
  | [], k, v => [(k, v)]
  | (k', v') :: rest, k, v =>
    if k' = k then (k', v) :: rest else (k', v') :: setKV rest k v

/-- Python dict lookup `d.get(k)`. -/
def lookupKV : Record → Str → Option Str
  | [], _ => none
  | (k', v') :: rest, k => if k' = k then some v' else lookupKV rest k

/-- `"["` -/
def lbrack : Str := ['[']
/-- `"]"` -/
def rbrack : Str := [']']
/-- `" \""`, the quote-space separator of line 70. -/
def quoteSp : Str := [' ', '"']

/-- Lines 69-71 of `main.py`.  For a line containing both `[` and `]`,
Python evaluates `line.split("[")[1].split("]")[0].split(" \"")` and
unpacks the result into `key, value`; unpacking a list whose length is
not 2 raises `ValueError`.  A line without both brackets yields `none`
(the line is ignored).  On success the key is stripped of whitespace
and the value of space/quote characters, as in the source. -/
def parseTagLine (line : Str) : Except PyErr (Option (Str × Str)) :=
  if hasSub lbrack line && hasSub rbrack line then
    match (splitOnL lbrack line).drop 1 with
    | [] => .error .indexError
    | after :: _ =>
      match splitOnL rbrack after with
      | [] => .error .indexError
      | inner :: _ =>
        match splitOnL quoteSp inner with
        | [k, v] => .ok (some (stripChars pyWhitespace k, stripChars quoteSp v))
        | _ => .error .valueError
  else .ok none

/-- Lines 65-71 of `main.py`: the per-block loop that fills the
`game_info` dict from the block's lines. -/
def parseLines (lines : List Str) (game_info : Record) : Except PyErr Record :=
  match lines with
  | [] => .ok game_info
  | l :: ls =>
    match parseTagLine l with
    | .error e => .error e
    | .ok none => parseLines ls game_info
    | .ok (some (k, v)) => parseLines ls (setKV game_info k v)

/-- `"\n"` -/
def nlSep : Str := ['\n']
/-- `"\n\n\n"`, the block separator of line 61. -/
def blockSep : Str := ['\n', '\n', '\n']

/-- Lines 64-73 of `main.py`: the loop appending one record per block
to `games_data`. -/
def parseBlocks : List Str → List Record → Except PyErr (List Record)
  | [], games_data => .ok games_data
  | game :: rest, games_data =>
    match parseLines (splitOnL nlSep game) [] with
    | .error e => .error e
    | .ok game_info => parseBlocks rest (games_data ++ [game_info])

/-- Lines 50-75 of `main.py`: split the bulk text on `"\n\n\n"`,
unconditionally drop the last split segment (`game_lines =
game_lines[:-1]`), and parse every remaining block into a record.  The
resulting `pd.DataFrame(games_data)` is modelled by the list of
records. -/
def pgn_to_dataframe (pgn_file : Str) : Except PyErr (List Record) :=
  parseBlocks ((splitOnL blockSep pgn_file).dropLast) []

/-- pandas `DataFrame.empty` for `pd.DataFrame(list_of_dicts)`: true
when there are no rows or no columns; the columns are the union of the
dicts' keys, so they are empty exactly when every dict is empty. -/
def dfEmpty (df : List Record) : Bool :=
  df.isEmpty || df.all (fun r => r.isEmpty)

/-- pandas column access `df[k]` on `pd.DataFrame(list_of_dicts)`:
raises `KeyError` when no record has the key; otherwise one entry per
row, `none` (`NaN`) for rows lacking the key. -/
def dfGetCol (df : List Record) (k : Str) : Except PyErr (List (Option Str)) :=
  if df.any (fun r => (lookupKV r k).isSome) then
    .ok (df.map (fun r => lookupKV r k))
  else .error .keyError

/-- Counting step of `Series.value_counts`: bump the count of `x`,
first appearances at the back. -/
def incr : List (Str × Nat) → Str → List (Str × Nat)
  | [], x => [(x, 1)]
  | (y, n) :: rest, x =>
    if y = x then (y, n + 1) :: rest else (y, n) :: incr rest x

/-- Occurrence counts of a list of values, in first-appearance order. -/
def tally (xs : List Str) : List (Str × Nat) := xs.foldl incr []

/-- Insert into a count-descending list: the element goes after every
element of strictly greater count and before the rest, so inserting
earlier elements last keeps equal counts in their original order. -/
def insertDesc (p : Str × Nat) : List (Str × Nat) → List (Str × Nat)
  | [] => [p]
  | q :: qs => if p.2 < q.2 then q :: insertDesc p qs else p :: q :: qs

/-- Sort by count descending (insertion sort). -/
def sortDesc (l : List (Str × Nat)) : List (Str × Nat) := l.foldr insertDesc []

/-- pandas `Series.value_counts()`: drop nulls, count occurrences, sort
by count descending.  pandas does not document the relative order of
equal counts (it depends on hash-table iteration and a non-stable
sort); this model fixes first-appearance order for definiteness, and
no theorem below depends on the order of equal counts. -/
def valueCounts (col : List (Option Str)) : List (Str × Nat) :=
  sortDesc (tally (col.filterMap id))

/-- One row of the `favorite_openings_df` table of `main.py`. -/
structure Row where
  gameMode : Str
  piece : Str
  opening : Str
  gamesPlayed : Nat
deriving DecidableEq, Repr

/-- `top_n = 5`, line 105 of `main.py`. -/
def top_n : Nat := 5

/-- Lines 114-123 of `main.py`, the body run for one (mode, color)
response: skip an empty frame; otherwise take
`df["Opening"].value_counts().head(top_n)` and build the per-group
`pd.DataFrame` whose `"Game Mode"` and `"Piece"` columns are the fixed
lists `[mode] * top_n` and `[color] * top_n` (length `top_n`) while the
`"Opening"`/`"Games Played"` columns have the length of the ranked
series; `pd.DataFrame` raises `ValueError` when these lengths differ. -/
def aggregateBlock (mode color : Str) (df : List Record) : Except PyErr (List Row) :=
  if dfEmpty df then .ok []
  else
    match dfGetCol df (strL "Opening") with
    | .error e => .error e
    | .ok col =>
      let top := (valueCounts col).take top_n
      if top.length = top_n then
        .ok (top.map fun p =>
          { gameMode := mode, piece := color, opening := p.1, gamesPlayed := p.2 })
      else .error .valueError

/-- Lines 107-131 of `main.py`: the loop over (mode, color) pairs,
accumulating rows by `pd.concat`.  The input pairs each (mode, color)
with the text the corpus source returned for it. -/
def buildTable (favorite_openings : List Row) :
    List ((Str × Str) × Str) → Except PyErr (List Row)
  | [] => .ok favorite_openings
  | ((mode, color), text) :: rest =>
    match pgn_to_dataframe text with
    | .error e => .error e
    | .ok df =>
      match aggregateBlock mode color df with
      | .error e => .error e
      | .ok rows => buildTable (favorite_openings ++ rows) rest

/-- `get_most_favorite_openings` of `main.py`, over already-fetched
response texts (the HTTP layer is outside the core). -/
def get_most_favorite_openings (fetched : List ((Str × Str) × Str)) :
    Except PyErr (List Row) :=
  buildTable [] fetched

/-- `Option.orElse` as a plain match, for readable statements. -/
def optOr {α : Type} : Option α → Option α → Option α
  | some a, _ => some a
  | none, b => b

/-- The value a line assigns to key `k` when it is a recognized tag
line for `k`, `none` otherwise. -/
def tagOf (k : Str) (line : Str) : Option Str :=
  match parseTagLine line with
  | .ok (some (k', v)) => if k' = k then some v else none
  | _ => none

/-- The value of the last line in the list that is a recognized tag
line for key `k` (later lines take precedence). -/
def lastTagValue (k : Str) : List Str → Option Str
  | [] => none
  | l :: ls => optOr (lastTagValue k ls) (tagOf k l)

/-- Python's built-in `round` (half to even) on an exact rational. -/
def pyRound (q : ℚ) : ℤ :=
  if q - ⌊q⌋ = 1 / 2 then (if ⌊q⌋ % 2 = 0 then ⌊q⌋ else ⌊q⌋ + 1) else round q

/-- Python's `round(x, 1)` on an exact rational. -/
def pyRound1 (q : ℚ) : ℚ := (pyRound (q * 10) : ℚ) / 10

/-- Lines 283-292 of `main.py`: the per-mode percentage display.  When
`games_played` is truthy each percentage is
`round(count / games_played * 100, 1)`; otherwise the three metrics are
rendered with `value = None`, modelled as `none`.  The numpy float
arithmetic of the source is modelled over exact rationals. -/
def modePercentages (games_played wins draws losses : ℕ) : Option (ℚ × ℚ × ℚ) :=
  if (games_played : ℚ) = 0 then none
  else some
    (pyRound1 ((wins : ℚ) / (games_played : ℚ) * 100),
     pyRound1 ((draws : ℚ) / (games_played : ℚ) * 100),
     pyRound1 ((losses : ℚ) / (games_played : ℚ) * 100))

/-! Concrete inputs used by witnesses. -/

/-- A corpus of five records with five distinct openings. -/
def exCorpus5 : List Record :=
  [[(strL "Opening", strL "A")], [(strL "Opening", strL "B")],
   [(strL "Opening", strL "C")], [(strL "Opening", strL "D")],
   [(strL "Opening", strL "E")]]

/-- The ranked rows produced for `exCorpus5` in blitz as white. -/
def exRows5 : List Row :=
  [⟨strL "blitz", strL "white", strL "A", 1⟩,
   ⟨strL "blitz", strL "white", strL "B", 1⟩,
   ⟨strL "blitz", strL "white", strL "C", 1⟩,
   ⟨strL "blitz", strL "white", strL "D", 1⟩,
   ⟨strL "blitz", strL "white", strL "E", 1⟩]

/-- A bulk text of five games with five distinct openings. -/
def exText5 : Str :=
  strL "[Opening \"A\"]\n\n\n[Opening \"B\"]\n\n\n[Opening \"C\"]\n\n\n[Opening \"D\"]\n\n\n[Opening \"E\"]\n\n\n"

/-! Helper lemmas about the dict operations and the per-block loop. -/

theorem optOr_none {α : Type} (x : Option α) : optOr x none = x := by
  cases x <;> rfl

theorem lookup_setKV_self (r : Record) (k v : Str) :
    lookupKV (setKV r k v) k = some v := by
  induction r with
  | nil => simp [setKV, lookupKV]
  | cons p rest ih =>
    obtain ⟨k', v'⟩ := p
    by_cases h : k' = k
    · subst h; simp [setKV, lookupKV]
    · simp [setKV, lookupKV, h, ih]

theorem lookup_setKV_ne (r : Record) (k' v k : Str) (h : k' ≠ k) :
    lookupKV (setKV r k' v) k = lookupKV r k := by
  induction r with
  | nil => simp [setKV, lookupKV, h]
  | cons p rest ih =>
    obtain ⟨k2, v2⟩ := p
    by_cases h2 : k2 = k'
    · subst h2; simp [setKV, lookupKV, h]
    · simp only [setKV, lookupKV, if_neg h2]
      split <;> simp [ih]

theorem parseLines_lookup (k : Str) (lines : List Str) :
    ∀ acc r : Record, parseLines lines acc = .ok r →
      lookupKV r k = optOr (lastTagValue k lines) (lookupKV acc k) := by
  induction lines with
  | nil =>
    intro acc r h
    simp [parseLines] at h
    subst h
    simp [lastTagValue, optOr]
  | cons l ls ih =>
    intro acc r h
    rw [parseLines] at h
    cases hp : parseTagLine l with
    | error e => rw [hp] at h; exact absurd h (by simp)
    | ok o =>
      rw [hp] at h
      cases o with
      | none =>
        have ht : tagOf k l = none := by simp [tagOf, hp]
        simp only [lastTagValue, ht, optOr_none]
        exact ih acc r h
      | some kv =>
        obtain ⟨k', v'⟩ := kv
        have ih' := ih (setKV acc k' v') r h
        have ht : tagOf k l = if k' = k then some v' else none := by
          simp [tagOf, hp]
        simp only [lastTagValue, ht]
        by_cases hk : k' = k
        · subst hk
          rw [if_pos rfl]
          cases hx : lastTagValue k' ls with
          | some w => rw [hx] at ih'; simpa [optOr] using ih'
          | none => rw [hx, lookup_setKV_self] at ih'; simpa [optOr] using ih'
        · rw [if_neg hk, optOr_none]
          rw [lookup_setKV_ne acc k' v' k hk] at ih'
          exact ih'

/-- C1 (code divergence, evaluated): `pgn_to_dataframe` unconditionally
discards the final split segment, so a bulk text of one game without a
trailing `"\n\n\n"` parses to zero records while the same text with the
separator appended parses to one record — the final non-empty segment
is not parsed, and the two record counts differ. -/
theorem c1_trailing_block_dropped :
    pgn_to_dataframe (strL "[Opening \"Italian Game\"]\n[Result \"1-0\"]") = .ok [] ∧
    (pgn_to_dataframe
        (strL "[Opening \"Italian Game\"]\n[Result \"1-0\"]\n\n\n")).map List.length =
      .ok 1 :=
  ⟨rfl, rfl⟩

/-- C2 (counterexample): a block containing the malformed tag line
`[Foo]` — a bracket pair whose content does not split into a key and a
quoted value — makes parsing of the whole bulk text abort with
`ValueError` instead of being skipped, and the block's recognized
`Result` tag is lost. -/
theorem c2_malformed_tag_line_aborts :
    pgn_to_dataframe (strL "[Result \"1-0\"]\n[Foo]\n\n\n") = .error .valueError :=
  rfl

/-- C2 (amended): a line without a bracket pair is skipped and never
aborts parsing — removing all such lines from a block leaves the parse
of the block unchanged.  (Lines with a bracket pair whose content does
not split into exactly a key and a quoted value abort parsing instead,
as the counterexample shows.) -/
theorem c2_bracketless_lines_skipped (lines : List Str) (game_info : Record) :
    parseLines lines game_info =
      parseLines (lines.filter fun l => hasSub lbrack l && hasSub rbrack l) game_info := by
  induction lines generalizing game_info with
  | nil => rfl
  | cons l ls ih =>
    by_cases h : (hasSub lbrack l && hasSub rbrack l) = true
    · rw [List.filter_cons, if_pos h]
      simp only [parseLines]
      cases hp : parseTagLine l with
      | error e => simp [hp]
      | ok o =>
        cases o with
        | none => simp [hp, ih]
        | some kv => obtain ⟨k, v⟩ := kv; simp [hp, ih]
    · rw [List.filter_cons, if_neg h]
      have hp : parseTagLine l = .ok none := by
        rw [parseTagLine, if_neg h]
      rw [parseLines, hp]
      exact ih game_info

/-- C9: within one successfully parsed block, a key appearing on
several recognized tag lines is mapped to the value of the last such
line (last occurrence wins). -/
theorem c9_duplicate_tag_last_wins (lines : List Str) (r : Record) (k v : Str)
    (hp : parseLines lines [] = .ok r) (hl : lastTagValue k lines = some v) :
    lookupKV r k = some v := by
  have h := parseLines_lookup k lines [] r hp
  rw [hl] at h
  simpa [optOr, lookupKV] using h

/-- C9 witness: a block with two `Result` tag lines parses to a record
holding the second value. -/
theorem c9_duplicate_tag_last_wins_witness :
    lookupKV [(strL "Result", strL "0-1")] (strL "Result") = some (strL "0-1") :=
  c9_duplicate_tag_last_wins
    [strL "[Result \"1-0\"]", strL "[Result \"0-1\"]"]
    [(strL "Result", strL "0-1")] (strL "Result") (strL "0-1") rfl rfl

/-! Helper lemmas about counting, sorting and the aggregation step. -/

theorem insertDesc_perm (p : Str × Nat) (l : List (Str × Nat)) :
    (insertDesc p l).Perm (p :: l) := by
  induction l with
  | nil => simp [insertDesc]
  | cons q qs ih =>
    rw [insertDesc]
    split
    · exact (ih.cons q).trans (List.Perm.swap p q qs)
    · exact List.Perm.refl _

theorem sortDesc_perm (l : List (Str × Nat)) : (sortDesc l).Perm l := by
  induction l with
  | nil => simp [sortDesc]
  | cons p ps ih =>
    have h : sortDesc (p :: ps) = insertDesc p (sortDesc ps) := rfl
    rw [h]
    exact (insertDesc_perm p (sortDesc ps)).trans (ih.cons p)

theorem incr_snd_sum (acc : List (Str × Nat)) (x : Str) :
    ((incr acc x).map Prod.snd).sum = ((acc.map Prod.snd).sum) + 1 := by
  induction acc with
  | nil => simp [incr]
  | cons q qs ih =>
    obtain ⟨y, n⟩ := q
    rw [incr]
    split
    · simp only [List.map_cons, List.sum_cons]
      omega
    · simp only [List.map_cons, List.sum_cons, ih]
      omega

theorem foldl_incr_sum (xs : List Str) :
    ∀ acc : List (Str × Nat),
      ((xs.foldl incr acc).map Prod.snd).sum = ((acc.map Prod.snd).sum) + xs.length := by
  induction xs with
  | nil => intro acc; simp
  | cons x xs ih =>
    intro acc
    rw [List.foldl_cons, ih, incr_snd_sum]
    simp only [List.length_cons]
    omega

theorem tally_sum (xs : List Str) : ((tally xs).map Prod.snd).sum = xs.length := by
  simpa [tally] using foldl_incr_sum xs []

theorem incr_snd_pos (acc : List (Str × Nat)) (x : Str)
    (h : ∀ q ∈ acc, 1 ≤ q.2) : ∀ q ∈ incr acc x, 1 ≤ q.2 := by
  induction acc with
  | nil =>
    intro q hq
    simp [incr] at hq
    subst hq
    exact le_refl 1
  | cons p ps ih =>
    obtain ⟨y, n⟩ := p
    intro q hq
    rw [incr] at hq
    by_cases hyx : y = x
    · rw [if_pos hyx] at hq
      rcases List.mem_cons.mp hq with rfl | hq
      · exact Nat.le_succ_of_le (h (y, n) (List.mem_cons_self _ _))
      · exact h q (List.mem_cons_of_mem _ hq)
    · rw [if_neg hyx] at hq
      rcases List.mem_cons.mp hq with rfl | hq
      · exact h (y, n) (List.mem_cons_self _ _)
      · exact ih (fun q hq => h q (List.mem_cons_of_mem _ hq)) q hq

theorem foldl_incr_pos (ys : List Str) :
    ∀ acc : List (Str × Nat), (∀ q ∈ acc, 1 ≤ q.2) →
      ∀ q ∈ ys.foldl incr acc, 1 ≤ q.2 := by
  induction ys with
  | nil =>
    intro acc h q hq
    rw [List.foldl_nil] at hq
    exact h q hq
  | cons y ys ih =>
    intro acc h
    rw [List.foldl_cons]
    exact ih _ (incr_snd_pos acc y h)

theorem tally_pos (xs : List Str) : ∀ q ∈ tally xs, 1 ≤ q.2 :=
  foldl_incr_pos xs [] (by simp)

theorem sum_take_le (n : Nat) (l : List Nat) : (l.take n).sum ≤ l.sum := by
  conv_rhs => rw [← List.take_append_drop n l]
  rw [List.sum_append]
  exact Nat.le_add_right _ _

theorem dfEmpty_false_of_key {df : List Record} {k : Str} (r : Record)
    (hr : r ∈ df) (hk : (lookupKV r k).isSome = true) : dfEmpty df = false := by
  have h1 : df.isEmpty = false := by
    cases df with
    | nil => cases hr
    | cons a l => rfl
  have h2 : df.all (fun r => r.isEmpty) = false := by
    cases hall : df.all (fun r => r.isEmpty) with
    | false => rfl
    | true =>
      have hre := List.all_eq_true.mp hall r hr
      cases r with
      | nil => simp [lookupKV] at hk
      | cons p rest => simp at hre
  rw [dfEmpty, h1, h2]
  rfl

theorem aggregateBlock_ok_cases {mode color : Str} {df : List Record} {rows : List Row}
    (h : aggregateBlock mode color df = .ok rows) :
    rows = [] ∨
      rows = ((valueCounts (df.map fun r => lookupKV r (strL "Opening"))).take top_n).map
        (fun p => { gameMode := mode, piece := color, opening := p.1,
                    gamesPlayed := p.2 }) := by
  rw [aggregateBlock] at h
  split at h
  · left
    injection h with h
    exact h.symm
  · rw [dfGetCol] at h
    split at h
    · simp at h
    · rename_i x col heq
      have hcol : col = df.map fun r => lookupKV r (strL "Opening") := by
        split at heq
        · injection heq with heq; exact heq.symm
        · simp at heq
      subst hcol
      dsimp only at h
      split at h
      · right
        injection h with h
        exact h.symm
      · simp at h

theorem col_filterMap_filter (df : List Record) (k : Str) :
    ((df.map fun r => lookupKV r k).filterMap id) =
      (((df.filter fun r => (lookupKV r k).isSome).map fun r => lookupKV r k).filterMap id) := by
  induction df with
  | nil => rfl
  | cons r rest ih =>
    cases hl : lookupKV r k with
    | none =>
      rw [List.map_cons, List.filterMap_cons]
      rw [List.filter_cons, if_neg (by simp [hl])]
      rw [hl]
      exact ih
    | some v =>
      rw [List.filter_cons, if_pos (by simp [hl])]
      rw [List.map_cons, List.map_cons, List.filterMap_cons, List.filterMap_cons]
      simp only [hl, id]
      rw [ih]

/-- C3 (code divergence, evaluated): a (mode, color) response whose
corpus has a single distinct opening — fewer than `top_n = 5` — makes
`get_most_favorite_openings` raise `ValueError` (the per-group frame is
built from columns of unequal lengths) instead of returning that
opening with its count. -/
theorem c3_fewer_than_top_n_raises :
    get_most_favorite_openings
      [((strL "blitz", strL "white"),
        strL "[Opening \"Italian Game\"]\n[Result \"1-0\"]\n\n\n")] =
      .error .valueError := rfl

/-- C4 (counterexample): a non-empty corpus in which no record has the
`Opening` tag does not aggregate — the column access raises `KeyError`. -/
theorem c4_no_opening_column_keyerror :
    aggregateBlock (strL "blitz") (strL "white") [[(strL "Result", strL "1-0")]] =
      .error .keyError := rfl

/-- C4 (amended): as long as at least one record carries the `Opening`
tag, records lacking the tag are excluded from the aggregation only:
the aggregation behaves exactly as on the sub-corpus of records that
have the tag (no "unknown" bucket, and the rest of the corpus is not
invalidated).  A corpus with no such record raises `KeyError` instead,
as the counterexample shows. -/
theorem c4_missing_opening_excluded (mode color : Str) (df : List Record)
    (h : ∃ r ∈ df, (lookupKV r (strL "Opening")).isSome = true) :
    aggregateBlock mode color df =
      aggregateBlock mode color
        (df.filter fun r => (lookupKV r (strL "Opening")).isSome) := by
  obtain ⟨r, hr, hk⟩ := h
  have hrf : r ∈ df.filter fun r => (lookupKV r (strL "Opening")).isSome :=
    List.mem_filter.mpr ⟨hr, hk⟩
  have h1 := dfEmpty_false_of_key r hr hk
  have h2 := dfEmpty_false_of_key r hrf hk
  have h3 : (df.any fun r => (lookupKV r (strL "Opening")).isSome) = true :=
    List.any_eq_true.mpr ⟨r, hr, hk⟩
  have h4 : ((df.filter fun r => (lookupKV r (strL "Opening")).isSome).any
      fun r => (lookupKV r (strL "Opening")).isSome) = true :=
    List.any_eq_true.mpr ⟨r, hrf, hk⟩
  rw [aggregateBlock, aggregateBlock, if_neg (by simp [h1]), if_neg (by simp [h2]),
    dfGetCol, dfGetCol, if_pos h3, if_pos h4]
  have hcol := col_filterMap_filter df (strL "Opening")
  simp only [valueCounts, hcol]

/-- C4 witness: on a corpus with one record lacking the tag and one
record having it, aggregation equals aggregation on the filtered
sub-corpus. -/
theorem c4_missing_opening_excluded_witness :
    aggregateBlock (strL "blitz") (strL "white")
        [[(strL "Result", strL "1-0")], [(strL "Opening", strL "A")]] =
      aggregateBlock (strL "blitz") (strL "white")
        ([[(strL "Result", strL "1-0")], [(strL "Opening", strL "A")]].filter
          fun r => (lookupKV r (strL "Opening")).isSome) :=
  c4_missing_opening_excluded (strL "blitz") (strL "white")
    [[(strL "Result", strL "1-0")], [(strL "Opening", strL "A")]]
    ⟨[(strL "Opening", strL "A")], by decide, by decide⟩

/-- C5: whenever the per-group aggregation returns rows, it returns at
most `top_n` of them, and their counts sum to at most the corpus size
of the group. -/
theorem c5_group_bounds (mode color : Str) (df : List Record) (rows : List Row)
    (h : aggregateBlock mode color df = .ok rows) :
    rows.length ≤ top_n ∧ (rows.map Row.gamesPlayed).sum ≤ df.length := by
  rcases aggregateBlock_ok_cases h with rfl | hr
  · simp
  · subst hr
    constructor
    · rw [List.length_map]
      exact List.length_take_le _ _
    · rw [List.map_map]
      have hfun : (Row.gamesPlayed ∘ fun p : Str × Nat =>
          ({ gameMode := mode, piece := color, opening := p.1,
             gamesPlayed := p.2 } : Row)) = Prod.snd := rfl
      rw [hfun, List.map_take]
      refine le_trans (sum_take_le _ _) ?_
      rw [valueCounts]
      have hperm := ((sortDesc_perm (tally ((df.map fun r =>
        lookupKV r (strL "Opening")).filterMap id))).map Prod.snd).sum_eq
      rw [hperm, tally_sum]
      have hlen := List.length_filterMap_le (id : Option Str → Option Str)
        (df.map fun r => lookupKV r (strL "Opening"))
      simpa using hlen

/-- C5 witness: the bounds hold at a five-opening corpus whose
aggregation succeeds. -/
theorem c5_group_bounds_witness :
    exRows5.length ≤ top_n ∧ (exRows5.map Row.gamesPlayed).sum ≤ exCorpus5.length :=
  c5_group_bounds (strL "blitz") (strL "white") exCorpus5 exRows5 rfl

theorem buildTable_skip (mode color : Str) (t : Str) (df : List Record)
    (hp : pgn_to_dataframe t = .ok df) (he : dfEmpty df = true)
    (ys : List ((Str × Str) × Str)) :
    ∀ (xs : List ((Str × Str) × Str)) (acc : List Row),
      buildTable acc (xs ++ ((mode, color), t) :: ys) = buildTable acc (xs ++ ys) := by
  have hagg : aggregateBlock mode color df = .ok [] := by
    rw [aggregateBlock, if_pos he]
  intro xs
  induction xs with
  | nil =>
    intro acc
    simp only [List.nil_append, buildTable, hp, hagg, List.append_nil]
  | cons x xs ih =>
    intro acc
    obtain ⟨⟨m2, c2⟩, t2⟩ := x
    rw [List.cons_append, List.cons_append, buildTable, buildTable]
    cases h2 : pgn_to_dataframe t2 with
    | error e => simp [h2]
    | ok df2 =>
      cases h3 : aggregateBlock m2 c2 df2 with
      | error e => simp [h2, h3]
      | ok rows2 =>
        simp only [h2, h3]
        exact ih _

/-- C7: a (mode, color) pair whose response parses to an empty corpus
contributes zero rows and no error: deleting that pair from the request
list leaves the resulting table unchanged, wherever the pair sits. -/
theorem c7_empty_corpus_zero_rows (mode color : Str) (t : Str) (df : List Record)
    (xs ys : List ((Str × Str) × Str))
    (hp : pgn_to_dataframe t = .ok df) (he : dfEmpty df = true) :
    get_most_favorite_openings (xs ++ ((mode, color), t) :: ys) =
      get_most_favorite_openings (xs ++ ys) := by
  rw [get_most_favorite_openings, get_most_favorite_openings]
  exact buildTable_skip mode color t df hp he ys xs []

/-- C7 witness: an empty response for a pair yields the same table as
omitting the pair. -/
theorem c7_empty_corpus_zero_rows_witness :
    get_most_favorite_openings [((strL "blitz", strL "white"), strL "")] =
      get_most_favorite_openings [] :=
  c7_empty_corpus_zero_rows (strL "blitz") (strL "white") (strL "") [] [] [] rfl rfl

theorem aggregateBlock_pos {mode color : Str} {df : List Record} {rows : List Row}
    (h : aggregateBlock mode color df = .ok rows) :
    ∀ row ∈ rows, 1 ≤ row.gamesPlayed := by
  rcases aggregateBlock_ok_cases h with rfl | hr
  · simp
  · subst hr
    intro row hrow
    rw [List.mem_map] at hrow
    obtain ⟨p, hp, rfl⟩ := hrow
    have hp2 : p ∈ valueCounts (df.map fun r => lookupKV r (strL "Opening")) :=
      List.mem_of_mem_take hp
    rw [valueCounts] at hp2
    have hp3 := (sortDesc_perm _).mem_iff.mp hp2
    exact tally_pos _ p hp3

theorem buildTable_pos (fetched : List ((Str × Str) × Str)) :
    ∀ acc rows : List Row, (∀ r ∈ acc, 1 ≤ r.gamesPlayed) →
      buildTable acc fetched = .ok rows → ∀ r ∈ rows, 1 ≤ r.gamesPlayed := by
  induction fetched with
  | nil =>
    intro acc rows hacc h
    rw [buildTable] at h
    injection h with h
    subst h
    exact hacc
  | cons x rest ih =>
    obtain ⟨⟨mode, color⟩, text⟩ := x
    intro acc rows hacc h
    rw [buildTable] at h
    split at h
    · simp at h
    · split at h
      · simp at h
      · rename_i rows2 heq2
        refine ih (acc ++ rows2) rows (fun r hr => ?_) h
        rcases List.mem_append.mp hr with hr | hr
        · exact hacc r hr
        · exact aggregateBlock_pos heq2 r hr

/-- C10: every count in a successfully built ranked openings table is
at least 1 — an opening occurring zero times never appears as a row. -/
theorem c10_counts_positive (fetched : List ((Str × Str) × Str)) (rows : List Row)
    (h : get_most_favorite_openings fetched = .ok rows) :
    ∀ row ∈ rows, 1 ≤ row.gamesPlayed :=
  buildTable_pos fetched [] rows (by simp) h

/-- C10 witness: positivity of the first row's count in a concrete
successfully built table. -/
theorem c10_counts_positive_witness :
    1 ≤ (⟨strL "blitz", strL "white", strL "A", 1⟩ : Row).gamesPlayed :=
  c10_counts_positive [((strL "blitz", strL "white"), exText5)] exRows5 rfl
    ⟨strL "blitz", strL "white", strL "A", 1⟩ (by decide)

/-- C8: in the per-mode metrics display, when `games_played` is
positive each outcome percentage is `count / games_played * 100`
rounded to one decimal place, and when `games_played = 0` the three
percentages are rendered as the explicit no-data value `none`, never as
a computed `0.0`. -/
theorem c8_percentage_definedness (games_played wins draws losses : ℕ) :
    (0 < games_played →
      modePercentages games_played wins draws losses =
        some (pyRound1 ((wins : ℚ) / (games_played : ℚ) * 100),
              pyRound1 ((draws : ℚ) / (games_played : ℚ) * 100),
              pyRound1 ((losses : ℚ) / (games_played : ℚ) * 100))) ∧
    (games_played = 0 → modePercentages games_played wins draws losses = none) := by
  constructor
  · intro h
    have hne : ¬((games_played : ℚ) = 0) := by
      simpa using Nat.pos_iff_ne_zero.mp h
    rw [modePercentages, if_neg hne]
  · intro h
    subst h
    simp [modePercentages]

/-- C8 witness: concrete evaluation on both branches. -/
theorem c8_percentage_definedness_witness :
    (0 < 4 ∧ modePercentages 4 2 1 1 = some (50, 25, 25)) ∧
      modePercentages 0 3 4 5 = none :=
  ⟨⟨by decide, by
      rw [(c8_percentage_definedness 4 2 1 1).1 (by decide)]
      norm_num [pyRound1, pyRound, round]⟩,
    (c8_percentage_definedness 0 3 4 5).2 rfl⟩
